import Mathlib

/-!
# Verification of the `vxde` `.vxd` parser (`src/lib.rs`)

Shallow embedding of `VxdeParser::from_file` and its collaborators.

The Rust code (lib.rs, lines 61-152) reads a file line by line and, for each
line, runs `captures_iter` of the regex

  `(?m)^\s*([A-Za-z_][A-Za-z0-9_]*)\s*:\s*(string|i32|i64|u32|u64|f32|f64|bool|char)\s*(=\s*([^;]*))?\s*;`

over the line, coerces each capture to a `VxdValue` and inserts it in a
`HashMap`.  Modelling notes, each justified against the regex crate's
leftmost-first semantics:

* `BufRead::lines` yields strings with the trailing `\n` (and `\r\n`)
  stripped, so a haystack handed to the regex contains no `'\n'`.  With the
  `m` flag, `^` matches only at the start of the haystack or right after a
  `'\n'`; hence every match must start at position 0, and `captures_iter`
  yields at most ONE capture per line (a second match would have to start
  after the end of the first, where `^` cannot match).  The matcher is
  therefore embedded as `matchLine : List Char → Option Decl`.
* The nine tag literals are pairwise prefix-free, so alternation order never
  matters; the first (hence only) alternative matching is taken.
* Greedy `[A-Za-z_][A-Za-z0-9_]*` never needs backtracking: a shorter
  identifier would leave an identifier character where `\s*:` requires `:`.
  Likewise `[^;]*` stops exactly at the first `;` (or end) and `\s*;` after
  it succeeds iff that `;` exists, and the optional group `(=\s*([^;]*))?`
  can be committed to as soon as `=` is seen (if it fails, the group-absent
  path would require `;` where `=` stands, failing as well).
* The regex class `\s` and Rust's `str::trim` are modelled on ASCII
  whitespace; no claim involves non-ASCII whitespace.
* Rust's `str::parse` for the integer and bool types is embedded from its
  documented grammar (optional sign then decimal digits, within range;
  unsigned types accept `+` and reject `-`; bool is exactly `true`/`false`).
* The IEEE payload of `f32`/`f64` is not modelled: `str::parse::<f32>` never
  fails on a string accepted by the documented float grammar, so for every
  claim only ACCEPTANCE matters.  The `F32`/`F64` variants carry the accepted
  literal text instead of a float; no claim inspects a float payload.
* The `HashMap<String, VxdValue>` store is embedded as an association list
  whose `insertVar` removes every previous binding of the key, matching
  `HashMap::insert`'s overwrite semantics observably (lookup and occurrence
  count agree).
* The line source (`File::open` + `BufReader::lines`) is the external
  collaborator: it is modelled as a `List (Except String (List Char))`, each
  item either a line or an I/O failure, and `from_file` propagates the first
  failure exactly as `let line = line?;` does.
-/

namespace Vxde

/-- The regex class `\s` (ASCII part): space, tab, newline, vertical tab,
form feed, carriage return. -/
def isWs (c : Char) : Bool :=
  c = ' ' || c = '\t' || c = '\n' || c = '\x0b' || c = '\x0c' || c = '\r'

/-- Greedy `\s*`: drop leading whitespace. -/
def dropWs : List Char → List Char
  | [] => []
  | c :: cs => if isWs c then dropWs cs else c :: cs

/-- Rust `str::trim` (ASCII whitespace): drop whitespace from both ends. -/
def trimChars (s : List Char) : List Char :=
  (dropWs (dropWs s).reverse).reverse

/-- The regex class `[A-Za-z_]` (identifier start). -/
def isIdentStart (c : Char) : Bool :=
  c.isAlpha || c = '_'

/-- The regex class `[A-Za-z0-9_]` (identifier continuation). -/
def isIdentCont (c : Char) : Bool :=
  c.isAlphanum || c = '_'

/-- Greedy `[A-Za-z_][A-Za-z0-9_]*`: take an identifier (at least one
character), returning it and the rest of the line. -/
def takeIdent : List Char → Option (List Char × List Char)
  | [] => none
  | c :: cs =>
    if isIdentStart c then
      some (c :: cs.takeWhile isIdentCont, cs.dropWhile isIdentCont)
    else
      none

/-- The nine type-tag literals of the regex alternation, in source order. -/
def tagList : List String :=
  ["string", "i32", "i64", "u32", "u64", "f32", "f64", "bool", "char"]

/-- Match a literal at the head of the input, returning the rest. -/
def dropLit : List Char → List Char → Option (List Char)
  | [], s => some s
  | _ :: _, [] => none
  | p :: ps, c :: cs => if p = c then dropLit ps cs else none

/-- Try the alternation: first literal that matches at the current position
wins (the nine tags are pairwise prefix-free, so at most one can match). -/
def tryTags : List String → List Char → Option (String × List Char)
  | [], _ => none
  | t :: ts, s =>
    match dropLit t.data s with
    | some rest => some (t, rest)
    | none => tryTags ts s

/-- One candidate declaration: capture group 1 (`name`), group 2 (`vtype`),
and group 4 (the raw value text after `=`, absent when the optional group
did not participate). -/
structure Decl where
  name : List Char
  vtype : String
  rawValue : Option (List Char)
deriving Repr, DecidableEq

/-- Tail of the regex after the type tag, `\s*(=\s*([^;]*))?\s*;`: either
the optional group participates (an `=` follows, group 4 is the greedy
`[^;]*`, and the `;` after it must exist) or it does not (the next
non-whitespace character must be the `;` itself). -/
def afterTag (name : List Char) (t : String) (s3 : List Char) : Option Decl :=
  match dropWs s3 with
  | '=' :: s4 =>
    match (dropWs s4).dropWhile (fun c => c != ';') with
    | ';' :: _ => some ⟨name, t, some ((dropWs s4).takeWhile (fun c => c != ';'))⟩
    | _ => none
  | ';' :: _ => some ⟨name, t, none⟩
  | _ => none

/-- The Declaration Matcher: the single capture (if any) produced by
`captures_iter` of the anchored regex on one line (see the header for why
at most one capture is possible per line). -/
def matchLine (line : List Char) : Option Decl :=
  match takeIdent (dropWs line) with
  | none => none
  | some (name, s1) =>
    match dropWs s1 with
    | ':' :: s2 =>
      match tryTags tagList (dropWs s2) with
      | none => none
      | some (t, s3) => afterTag name t s3
    | _ => none

/-- `VxdValue` (lib.rs lines 15-26).  `F32`/`F64` carry the accepted literal
text, not an IEEE float (see header). -/
inductive VxdValue where
  | String : List Char → VxdValue
  | I32 : Int → VxdValue
  | I64 : Int → VxdValue
  | U32 : Nat → VxdValue
  | U64 : Nat → VxdValue
  | F32 : List Char → VxdValue
  | F64 : List Char → VxdValue
  | Bool : Bool → VxdValue
  | Char : Char → VxdValue
  | Null
deriving Repr, DecidableEq

/-- Value of a nonempty all-digit string, `none` otherwise. -/
def parseNatDigits (s : List Char) : Option Nat :=
  if s ≠ [] ∧ s.all Char.isDigit then
    some (s.foldl (fun a c => a * 10 + (c.toNat - 48)) 0)
  else
    none

/-- Strip one optional leading sign; `true` means negative. -/
def splitSign : List Char → Bool × List Char
  | '+' :: cs => (false, cs)
  | '-' :: cs => (true, cs)
  | cs => (false, cs)

/-- Rust `str::parse::<iN>`: optional sign, decimal digits, in range. -/
def parseRustSigned (bits : Nat) (s : List Char) : Option Int :=
  let (neg, ds) := splitSign s
  match parseNatDigits ds with
  | none => none
  | some m =>
    let v : Int := if neg then -(m : Int) else (m : Int)
    if -(2 ^ (bits - 1) : Int) ≤ v ∧ v ≤ 2 ^ (bits - 1) - 1 then some v else none

/-- Rust `str::parse::<uN>`: optional `+` (no `-`), decimal digits, in
range. -/
def parseRustUnsigned (bits : Nat) (s : List Char) : Option Nat :=
  let ds := match s with | '+' :: cs => cs | cs => cs
  match parseNatDigits ds with
  | none => none
  | some m => if m ≤ 2 ^ bits - 1 then some m else none

/-- Rust `str::parse::<bool>`: exactly `true` or `false`. -/
def parseRustBool (s : List Char) : Option Bool :=
  if s = "true".data then some true
  else if s = "false".data then some false
  else none

/-- Exponent part of Rust's float grammar: empty, or `e`/`E`, optional sign,
one or more digits. -/
def floatExp : List Char → Bool
  | [] => true
  | e :: r =>
    (e = 'e' || e = 'E') &&
      (let (_, ds) := splitSign r
       ds ≠ [] && ds.all Char.isDigit)

/-- `Number ::= (Digit+ | Digit+ '.' Digit* | Digit* '.' Digit+) Exp?` of
Rust's float grammar. -/
def floatNumber (s : List Char) : Bool :=
  match s.span Char.isDigit with
  | (intPart, r1) =>
    match r1 with
    | '.' :: r2 =>
      match r2.span Char.isDigit with
      | (fracPart, r3) => (intPart ≠ [] || fracPart ≠ []) && floatExp r3
    | r => intPart ≠ [] && floatExp r

/-- Acceptance by Rust `str::parse::<f32>` / `<f64>` (documented grammar):
optional sign, then `inf`, `infinity`, `nan` (case-insensitive) or a
decimal number with optional exponent.  Never fails on an accepted string,
so only acceptance is modelled. -/
def rustFloatAccept (s : List Char) : Bool :=
  let (_, b) := splitSign s
  let lb := b.map Char.toLower
  lb = "inf".data || lb = "infinity".data || lb = "nan".data || floatNumber b

/-- The Value Coercer: the `match vtype` of lib.rs lines 80-145, applied to
the already-trimmed value text.  The `_` arm is the fatal
`Err(InvalidInput, "Unsupported type: …")` of line 144. -/
def coerce (vtype : String) (value : List Char) : Except String VxdValue :=
  match vtype with
  | "string" =>
    if value = "null".data ∨ value = [] then .ok .Null
    else .ok (.String value)
  | "i32" =>
    if value = "null".data ∨ value = [] then .ok .Null
    else .ok (((parseRustSigned 32 value).map VxdValue.I32).getD .Null)
  | "i64" =>
    if value = "null".data ∨ value = [] then .ok .Null
    else .ok (((parseRustSigned 64 value).map VxdValue.I64).getD .Null)
  | "u32" =>
    if value = "null".data ∨ value = [] then .ok .Null
    else .ok (((parseRustUnsigned 32 value).map VxdValue.U32).getD .Null)
  | "u64" =>
    if value = "null".data ∨ value = [] then .ok .Null
    else .ok (((parseRustUnsigned 64 value).map VxdValue.U64).getD .Null)
  | "f32" =>
    if value = "null".data ∨ value = [] then .ok .Null
    else .ok (if rustFloatAccept value then .F32 value else .Null)
  | "f64" =>
    if value = "null".data ∨ value = [] then .ok .Null
    else .ok (if rustFloatAccept value then .F64 value else .Null)
  | "bool" =>
    if value = "null".data ∨ value = [] then .ok .Null
    else .ok (((parseRustBool value).map VxdValue.Bool).getD .Null)
  | "char" =>
    if value = "null".data ∨ value = [] then .ok .Null
    else .ok ((value.head?.map VxdValue.Char).getD .Null)
  | _ => .error ("Unsupported type: " ++ vtype)

/-- The per-tag parse attempt inside the coercion arms (lib.rs lines
88-143): the `value.parse::<T>().ok().map(VxdValue::…)` — respectively the
float acceptance and `value.chars().next()` — before the
`unwrap_or(VxdValue::Null)`. -/
def parsedUnder (t : String) (value : List Char) : Option VxdValue :=
  match t with
  | "i32" => (parseRustSigned 32 value).map VxdValue.I32
  | "i64" => (parseRustSigned 64 value).map VxdValue.I64
  | "u32" => (parseRustUnsigned 32 value).map VxdValue.U32
  | "u64" => (parseRustUnsigned 64 value).map VxdValue.U64
  | "f32" => if rustFloatAccept value then some (.F32 value) else none
  | "f64" => if rustFloatAccept value then some (.F64 value) else none
  | "bool" => (parseRustBool value).map VxdValue.Bool
  | "char" => value.head?.map VxdValue.Char
  | _ => none

/-- The Variable Store: association list standing for the
`HashMap<String, VxdValue>`. -/
abbrev VxdStore := List (List Char × VxdValue)

/-- `HashMap::insert`: bind `n` to `v`, removing every earlier binding of
`n`. -/
def insertVar (s : VxdStore) (n : List Char) (v : VxdValue) : VxdStore :=
  (n, v) :: s.filter (fun p => p.1 != n)

/-- `HashMap::get`. -/
def lookupVar (s : VxdStore) (n : List Char) : Option VxdValue :=
  (s.find? (fun p => p.1 == n)).map Prod.snd

/-- Process one line of the file (lib.rs lines 75-148): run the matcher,
trim the group-4 text (absent group ↦ `""`), coerce, insert.  A coercion
error aborts (the `return Err` of line 144). -/
def processLine (vars : VxdStore) (line : List Char) : Except String VxdStore :=
  match matchLine line with
  | none => .ok vars
  | some d =>
    let value := trimChars (d.rawValue.getD [])
    match coerce d.vtype value with
    | .error e => .error e
    | .ok v => .ok (insertVar vars d.name v)

/-- The Parser Driver loop (lib.rs lines 71-149): fold over the line source,
propagating the first failure (`let line = line?;`). -/
def runLines (vars : VxdStore) : List (Except String (List Char)) → Except String VxdStore
  | [] => .ok vars
  | .error e :: _ => .error e
  | .ok line :: rest =>
    match processLine vars line with
    | .error e => .error e
    | .ok vars1 => runLines vars1 rest

/-- `VxdeParser::from_file` (lib.rs lines 61-152), with the line source made
explicit: start from the empty map, process every line, return the store on
success. -/
def from_file (input : List (Except String (List Char))) : Except String VxdStore :=
  runLines [] input

/-! ## Helper lemmas -/

/-- The tag returned by the alternation is one of its literals. -/
theorem tryTags_mem {ts : List String} {s : List Char} {t : String} {r : List Char}
    (h : tryTags ts s = some (t, r)) : t ∈ ts := by
  induction ts with
  | nil => simp [tryTags] at h
  | cons a as ih =>
    rw [tryTags] at h
    split at h
    · simp only [Option.some.injEq, Prod.mk.injEq] at h
      rcases h with ⟨rfl, -⟩
      exact List.mem_cons_self _ _
    · exact List.mem_cons_of_mem _ (ih h)

/-- The remainder returned by the alternation is made of input characters. -/
theorem dropLit_subset {p s r : List Char} (h : dropLit p s = some r) : r ⊆ s := by
  induction p generalizing s with
  | nil =>
    rw [dropLit] at h
    cases h
    exact List.Subset.refl _
  | cons c cs ih =>
    cases s with
    | nil => simp [dropLit] at h
    | cons b bs =>
      rw [dropLit] at h
      split at h
      · exact (ih h).trans (List.subset_cons_self _ _)
      · cases h

/-- Characters surviving `dropWs` come from the input. -/
theorem dropWs_subset : ∀ {s : List Char}, dropWs s ⊆ s := by
  intro s
  induction s with
  | nil => simp [dropWs]
  | cons c cs ih =>
    rw [dropWs]
    split
    · exact ih.trans (List.subset_cons_self _ _)
    · exact List.Subset.refl _

/-- Characters surviving `dropWhile` come from the input. -/
theorem dropWhile_subset (p : Char → Bool) :
    ∀ (l : List Char), l.dropWhile p ⊆ l := by
  intro l
  induction l with
  | nil => simp [List.dropWhile]
  | cons a l ih =>
    rw [List.dropWhile]
    split
    · exact ih.trans (List.subset_cons_self _ _)
    · exact List.Subset.refl _

/-- The remainder after the identifier is made of input characters. -/
theorem takeIdent_subset {s n r : List Char} (h : takeIdent s = some (n, r)) :
    r ⊆ s := by
  cases s with
  | nil => simp [takeIdent] at h
  | cons c cs =>
    rw [takeIdent] at h
    split at h
    · rcases h with ⟨-, rfl⟩
      exact (dropWhile_subset _ cs).trans (List.subset_cons_self _ _)
    · cases h

/-- The remainder after the matched tag is made of input characters. -/
theorem tryTags_subset {ts : List String} {s : List Char} {t : String}
    {r : List Char} (h : tryTags ts s = some (t, r)) : r ⊆ s := by
  induction ts with
  | nil => simp [tryTags] at h
  | cons a as ih =>
    rw [tryTags] at h
    split at h
    · rcases h with ⟨rfl, rfl⟩
      next hd => exact dropLit_subset hd
    · exact ih h

/-- Inversion of the matcher: a capture fixes all intermediate remainders. -/
theorem matchLine_inv {line : List Char} {d : Decl} (h : matchLine line = some d) :
    ∃ name s1 s2 t s3,
      takeIdent (dropWs line) = some (name, s1) ∧
      dropWs s1 = ':' :: s2 ∧
      tryTags tagList (dropWs s2) = some (t, s3) ∧
      afterTag name t s3 = some d := by
  rw [matchLine] at h
  split at h
  · cases h
  · next name s1 hI =>
    split at h
    · next s2 hC =>
      split at h
      · cases h
      · next t s3 hT => exact ⟨name, s1, s2, t, s3, hI, hC, hT, h⟩
    · cases h

/-- The tag of a capture produced by `afterTag` is the tag it was given. -/
theorem afterTag_vtype {name : List Char} {t : String} {s3 : List Char} {d : Decl}
    (h : afterTag name t s3 = some d) : d.vtype = t := by
  rw [afterTag] at h
  split at h
  · split at h
    · cases h; rfl
    · cases h
  · cases h; rfl
  · cases h

/-- A capture carries a semicolon witness inside its tail. -/
theorem afterTag_semi {name : List Char} {t : String} {s3 : List Char} {d : Decl}
    (h : afterTag name t s3 = some d) : ';' ∈ s3 := by
  rw [afterTag] at h
  split at h
  · next s4 he =>
    split at h
    · next tl hdw =>
      have h1 : ';' ∈ (dropWs s4).dropWhile (fun c => c != ';') := by
        rw [hdw]; exact List.mem_cons_self _ _
      have h2 : ';' ∈ s4 := dropWs_subset (dropWhile_subset _ _ h1)
      have h3 : ';' ∈ dropWs s3 := by
        rw [he]; exact List.mem_cons_of_mem _ h2
      exact dropWs_subset h3
    · cases h
  · next hsemi =>
    have h1 : ';' ∈ dropWs s3 := by
      rw [hsemi]; exact List.mem_cons_self _ _
    exact dropWs_subset h1
  · cases h

/-- Every capture's tag is one of the nine literals of the alternation. -/
theorem matchLine_vtype_mem {line : List Char} {d : Decl}
    (h : matchLine line = some d) : d.vtype ∈ tagList := by
  obtain ⟨name, s1, s2, t, s3, -, -, hT, hA⟩ := matchLine_inv h
  rw [afterTag_vtype hA]
  exact tryTags_mem hT

/-- A line that matches contains a colon. -/
theorem matchLine_mem_colon {line : List Char} {d : Decl}
    (h : matchLine line = some d) : ':' ∈ line := by
  obtain ⟨name, s1, s2, t, s3, hI, hC, -, -⟩ := matchLine_inv h
  have h1 : ':' ∈ dropWs s1 := by rw [hC]; exact List.mem_cons_self _ _
  exact dropWs_subset (takeIdent_subset hI (dropWs_subset h1))

/-- A line that matches contains a semicolon. -/
theorem matchLine_mem_semi {line : List Char} {d : Decl}
    (h : matchLine line = some d) : ';' ∈ line := by
  obtain ⟨name, s1, s2, t, s3, hI, hC, hT, hA⟩ := matchLine_inv h
  have h1 : ';' ∈ dropWs s2 := tryTags_subset hT (afterTag_semi hA)
  have h2 : ';' ∈ dropWs s1 := by
    rw [hC]; exact List.mem_cons_of_mem _ (dropWs_subset h1)
  exact dropWs_subset (takeIdent_subset hI (dropWs_subset h2))

/-- On each of the nine recognized tags the coercion always succeeds: every
arm of the `match vtype` other than the fatal `_` ends in a value. -/
theorem coerce_isOk {t : String} (ht : t ∈ tagList) (value : List Char) :
    ∃ v, coerce t value = .ok v := by
  fin_cases ht <;> (rw [coerce]; split)
  case _ => exact ⟨_, rfl⟩
  all_goals exact ⟨_, rfl⟩

/-- Processing a single well-delivered line never fails. -/
theorem processLine_isOk (vars : VxdStore) (line : List Char) :
    ∃ s, processLine vars line = .ok s := by
  cases hm : matchLine line with
  | none => exact ⟨vars, by simp [processLine, hm]⟩
  | some d =>
    obtain ⟨v, hv⟩ := coerce_isOk (matchLine_vtype_mem hm) (trimChars (d.rawValue.getD []))
    exact ⟨insertVar vars d.name v, by simp [processLine, hm, hv]⟩

/-- The driver loop returns a store whenever every source item is a line. -/
theorem runLines_isOk {input : List (Except String (List Char))}
    (h : ∀ x ∈ input, ∃ line, x = Except.ok line) (vars : VxdStore) :
    ∃ s, runLines vars input = .ok s := by
  induction input generalizing vars with
  | nil => exact ⟨vars, rfl⟩
  | cons x rest ih =>
    obtain ⟨line, rfl⟩ := h x (List.mem_cons_self _ _)
    obtain ⟨s1, hs1⟩ := processLine_isOk vars line
    rw [runLines, hs1]
    exact ih (fun y hy => h y (List.mem_cons_of_mem _ hy)) s1

/-- The driver loop propagates the first source failure. -/
theorem runLines_append_error {pre : List (Except String (List Char))}
    (h : ∀ x ∈ pre, ∃ line, x = Except.ok line) (e : String)
    (post : List (Except String (List Char))) (vars : VxdStore) :
    runLines vars (pre ++ Except.error e :: post) = .error e := by
  induction pre generalizing vars with
  | nil => rw [List.nil_append, runLines]
  | cons x rest ih =>
    obtain ⟨line, rfl⟩ := h x (List.mem_cons_self _ _)
    obtain ⟨s1, hs1⟩ := processLine_isOk vars line
    rw [List.cons_append, runLines, hs1]
    exact ih (fun y hy => h y (List.mem_cons_of_mem _ hy)) s1

/-! ## Claims -/

/-- C1, counterexample: the line `X: foo = 1;` carries the type tag `foo`,
outside the nine recognized keywords, yet the parse does NOT abort: the
anchored pattern simply fails to capture anything on that line and
`from_file` returns a Store (here the empty one), contradicting the claimed
fatal failure. -/
theorem C1_counterexample :
    from_file [Except.ok "X: foo = 1;".data] = .ok ([] : VxdStore) := rfl

/-- C1, amended: a declaration whose type tag is outside the nine
recognized keywords is never captured by the Matcher, so the line is
silently skipped and the parse succeeds; the fatal unsupported-type branch
of the coercion cannot be reached from line input. -/
theorem C1_amended_skips :
    matchLine "X: foo = 1;".data = none ∧
      from_file [Except.ok "X: foo = 1;".data] = .ok ([] : VxdStore) :=
  ⟨rfl, rfl⟩

/-- C2, counterexample: the line `A: i32 = 1; B: string = "x";` holds two
well-formed semicolon-terminated declarations, but only the one anchored at
the start of the line is extracted: the resulting Store binds `A` alone and
`B` is absent. -/
theorem C2_counterexample :
    from_file [Except.ok "A: i32 = 1; B: string = \"x\";".data] =
        .ok [("A".data, VxdValue.I32 1)] ∧
      lookupVar [("A".data, VxdValue.I32 1)] "B".data = none :=
  ⟨rfl, rfl⟩

/-- C2, amended: the `(?m)^`-anchored pattern captures at most one
declaration per line, the one at the start of the line; on
`A: i32 = 1; B: string = "x";` the capture is `A` with tag `i32` and raw
value `1`, and the Store of the parse holds `A` only. -/
theorem C2_amended_first_only :
    matchLine "A: i32 = 1; B: string = \"x\";".data =
        some (Decl.mk "A".data "i32" (some "1".data)) ∧
      from_file [Except.ok "A: i32 = 1; B: string = \"x\";".data] =
        .ok [("A".data, VxdValue.I32 1)] :=
  ⟨rfl, rfl⟩

/-- C3, counterexample: the tag `int32` is NOT among the recognized
keywords — on `AGE: int32 = 30;` the Matcher captures nothing and the
parse returns an empty Store instead of the claimed `{AGE: Int32(30)}`. -/
theorem C3_counterexample :
    from_file [Except.ok "AGE: int32 = 30;".data] = .ok ([] : VxdStore) ∧
      matchLine "AGE: int32 = 30;".data = none :=
  ⟨rfl, rfl⟩

/-- C3, amended: the set of type tags recognized by the Matcher is exactly
the nine keywords `string i32 i64 u32 u64 f32 f64 bool char` (every capture
carries one of them, and each of them is capturable), and the `i32`-tagged
line `AGE: i32 = 30;` is captured and coerced to a 32-bit integer value. -/
theorem C3_amended_tags :
    (∀ (line : List Char) (d : Decl), matchLine line = some d → d.vtype ∈ tagList) ∧
      tagList = ["string", "i32", "i64", "u32", "u64", "f32", "f64", "bool", "char"] ∧
      (tagList.all fun t =>
          (matchLine ("X: ".data ++ t.data ++ " = 1;".data)).isSome) = true ∧
      from_file [Except.ok "AGE: i32 = 30;".data] =
        .ok [("AGE".data, VxdValue.I32 30)] :=
  ⟨fun _ _ h => matchLine_vtype_mem h, rfl, rfl, rfl⟩

/-- C3, witness: the amended theorem applied to the concrete line
`AGE: i32 = 30;` and its concrete capture. -/
theorem C3_witness :
    (Decl.mk "AGE".data "i32" (some "30".data)).vtype ∈ tagList :=
  C3_amended_tags.1 "AGE: i32 = 30;".data (Decl.mk "AGE".data "i32" (some "30".data)) rfl

/-- C4, counterexample: on `NAME: string = "hello";` the coercion stores
the trimmed value text verbatim, INCLUDING both quote characters: the Store
binds `NAME` to the 7-character string `"hello"`, not to the claimed
de-quoted 5-character `hello`. -/
theorem C4_counterexample :
    from_file [Except.ok "NAME: string = \"hello\";".data] =
        .ok [("NAME".data, VxdValue.String "\"hello\"".data)] ∧
      VxdValue.String "\"hello\"".data ≠ VxdValue.String "hello".data :=
  ⟨rfl, by decide⟩

/-- C4, amended: the string coercion performs no quote stripping and
interprets no escape sequences: every nonempty trimmed value text other
than `null` is stored verbatim, so `NAME: string = "hello";` binds `NAME`
to the text `"hello"` with its surrounding quote characters retained. -/
theorem C4_amended_verbatim :
    (∀ value : List Char, value ≠ "null".data → value ≠ [] →
        coerce "string" value = .ok (VxdValue.String value)) ∧
      from_file [Except.ok "NAME: string = \"hello\";".data] =
        .ok [("NAME".data, VxdValue.String "\"hello\"".data)] := by
  refine ⟨?_, rfl⟩
  intro value h1 h2
  rw [coerce, if_neg]
  rintro (h | h) <;> contradiction

/-- C4, witness: the amended coercion statement at the concrete quoted
value text of `NAME: string = "hello";`. -/
theorem C4_witness :
    coerce "string" "\"hello\"".data = .ok (VxdValue.String "\"hello\"".data) :=
  C4_amended_verbatim.1 "\"hello\"".data (by decide) (by decide)

/-- C5 (confirmed): for every recognized type tag, a raw value that is
absent, empty after trimming, or textually equal to the literal `null`
coerces to the null marker, regardless of the declared type. -/
theorem C5_null_uniform :
    ∀ t ∈ tagList, ∀ raw : Option (List Char),
      (raw = none ∨ trimChars (raw.getD []) = [] ∨
        trimChars (raw.getD []) = "null".data) →
      coerce t (trimChars (raw.getD [])) = .ok VxdValue.Null := by
  intro t ht raw h
  have hv : trimChars (raw.getD []) = "null".data ∨ trimChars (raw.getD []) = [] := by
    rcases h with rfl | h | h
    · right; rfl
    · right; exact h
    · left; exact h
  fin_cases ht <;> (rw [coerce, if_pos hv])

/-- C5, witness: an absent raw value under tag `i32` coerces to `Null`. -/
theorem C5_witness :
    coerce "i32" (trimChars ((none : Option (List Char)).getD [])) = .ok VxdValue.Null :=
  C5_null_uniform "i32" (by decide) none (Or.inl rfl)

/-- C6 (confirmed): for every numeric, boolean, or char type tag, a value
text whose per-tag parse fails coerces to the null marker and the parse
does not fail; in particular `FLAG: bool = maybe;` yields `FLAG ↦ Null`
(bool accepts exactly `true`/`false`, case-sensitive — `parseRustBool`). -/
theorem C6_parse_failure_null :
    (∀ (t : String) (value : List Char),
        t ∈ ["i32", "i64", "u32", "u64", "f32", "f64", "bool", "char"] →
        parsedUnder t value = none →
        coerce t value = .ok VxdValue.Null) ∧
      from_file [Except.ok "FLAG: bool = maybe;".data] =
        .ok [("FLAG".data, VxdValue.Null)] := by
  refine ⟨?_, rfl⟩
  intro t value ht hp
  fin_cases ht <;>
  · simp only [parsedUnder] at hp
    rw [coerce]
    split
    · rfl
    · simp_all

/-- C6, witness: the bool tag on the unparseable text `maybe`. -/
theorem C6_witness :
    coerce "bool" "maybe".data = .ok VxdValue.Null :=
  C6_parse_failure_null.1 "bool" "maybe".data (by decide) rfl

/-- C7 (confirmed): after every insertion the Store maps the inserted name
to exactly the new value and no entry with that name carries any other
value (the old binding leaves no trace), and a parse with two declarations
of the same name keeps only the one processed last. -/
theorem C7_last_write_wins :
    (∀ (s : VxdStore) (n : List Char) (v : VxdValue),
        lookupVar (insertVar s n v) n = some v ∧
        ∀ p ∈ insertVar s n v, p.1 = n → p.2 = v) ∧
      from_file [Except.ok "A: i32 = 1;".data, Except.ok "A: i32 = 2;".data] =
        .ok [("A".data, VxdValue.I32 2)] := by
  refine ⟨?_, rfl⟩
  intro s n v
  constructor
  · simp [lookupVar, insertVar, List.find?]
  · intro p hp hpn
    rcases List.mem_cons.mp hp with rfl | hp
    · rfl
    · have hf := List.of_mem_filter hp
      simp [hpn] at hf

/-- C7, witness: inserting `A ↦ I32 2` over a store holding `A ↦ I32 1`. -/
theorem C7_witness :
    lookupVar (insertVar [("A".data, VxdValue.I32 1)] "A".data (VxdValue.I32 2)) "A".data =
        some (VxdValue.I32 2) ∧
      (("A".data, VxdValue.I32 2) : List Char × VxdValue).2 = VxdValue.I32 2 :=
  ⟨(C7_last_write_wins.1 [("A".data, VxdValue.I32 1)] "A".data (VxdValue.I32 2)).1,
    (C7_last_write_wins.1 [("A".data, VxdValue.I32 1)] "A".data (VxdValue.I32 2)).2
      ("A".data, VxdValue.I32 2) (by decide) rfl⟩

/-- C8 (confirmed): if the line source reports a failure mid-parse (after
any run of well-delivered lines), the parse returns exactly that failure:
the `Except.error` result carries only the message, so the variables
accumulated before the failure are discarded and no partial Store reaches
the caller. -/
theorem C8_io_failure_aborts :
    ∀ (pre post : List (Except String (List Char))) (e : String),
      (∀ x ∈ pre, ∃ line, x = Except.ok line) →
      from_file (pre ++ Except.error e :: post) = Except.error e := by
  intro pre post e h
  exact runLines_append_error h e post []

/-- C8, witness: an I/O failure between two good lines is propagated. -/
theorem C8_witness :
    from_file [Except.ok "A: i32 = 1;".data, Except.error "io",
        Except.ok "B: i32 = 2;".data] = Except.error "io" :=
  C8_io_failure_aborts [Except.ok "A: i32 = 1;".data]
    [Except.ok "B: i32 = 2;".data] "io"
    (by
      intro x hx
      rw [List.mem_singleton] at hx
      exact ⟨"A: i32 = 1;".data, hx⟩)

/-- C9 (confirmed): a line on which the Matcher captures nothing leaves the
Store unchanged and raises no error, and any line without a colon, or
without a semicolon, is such a line. -/
theorem C9_malformed_skipped :
    (∀ (vars : VxdStore) (line : List Char),
        matchLine line = none → processLine vars line = .ok vars) ∧
      (∀ line : List Char, ':' ∉ line → matchLine line = none) ∧
      (∀ line : List Char, ';' ∉ line → matchLine line = none) := by
  refine ⟨?_, ?_, ?_⟩
  · intro vars line hm
    simp [processLine, hm]
  · intro line hc
    cases hm : matchLine line with
    | none => rfl
    | some d => exact absurd (matchLine_mem_colon hm) hc
  · intro line hs
    cases hm : matchLine line with
    | none => rfl
    | some d => exact absurd (matchLine_mem_semi hm) hs

/-- C9, witness: a colon-free line is skipped and leaves the store as it
was. -/
theorem C9_witness :
    processLine [] "no declaration here".data = .ok ([] : VxdStore) ∧
      matchLine "A. i32 = 1".data = none :=
  ⟨C9_malformed_skipped.1 [] "no declaration here".data rfl,
    C9_malformed_skipped.2.1 "A. i32 = 1".data (by decide)⟩

/-- C10 (confirmed): processing a well-delivered line can never fail — the
unsupported-type arm of the coercion is unreachable because every captured
tag is one of the nine handled keywords — so on any input whose items are
all lines (no I/O failure) the parse returns a Store. -/
theorem C10_no_fatal_from_lines :
    (∀ (vars : VxdStore) (line : List Char), ∃ s, processLine vars line = .ok s) ∧
      ∀ input : List (Except String (List Char)),
        (∀ x ∈ input, ∃ line, x = Except.ok line) →
        ∃ s, from_file input = Except.ok s :=
  ⟨processLine_isOk, fun _ h => runLines_isOk h []⟩

/-- C10, witness: a two-line failure-free input (one line unmatched, one
matched) parses to a Store. -/
theorem C10_witness :
    ∃ s, from_file [Except.ok "X: foo = 1;".data, Except.ok "AGE: i32 = 30;".data] =
        Except.ok s :=
  C10_no_fatal_from_lines.2 _ (by
    intro x hx
    fin_cases hx
    · exact ⟨"X: foo = 1;".data, rfl⟩
    · exact ⟨"AGE: i32 = 30;".data, rfl⟩)

end Vxde
